import Mathlib

/-!
Verification of the podchat conversational-interrupt pipeline
(`src/main_cli.py`, `src/spotify_client.py`).

Shallow embedding: the response segmenter (the streaming loop of
`generate_host_response`), the rewind resolver (`find_rewind_point`),
the synthesis/playback queue, the resume orchestration at the end of
`handle_talk`, and `SpotifyClient.resume`.
-/

namespace Podchat

/-! ### Basic character/string helpers mirroring Python semantics -/

/-- Python regex `\s` (ASCII range used by the program). -/
def isPySpace (c : Char) : Bool :=
  c = ' ' || c = '\t' || c = '\n' || c = '\r' || c = '\x0b' || c = '\x0c'

/-- Python `str.strip()` on a character list. -/
def stripL (s : List Char) : List Char :=
  ((s.dropWhile isPySpace).reverse.dropWhile isPySpace).reverse

/-- ASCII lower-casing of one character, as `str.lower()` acts on ASCII. -/
def lowerChar (c : Char) : Char :=
  if 'A' ≤ c ∧ c ≤ 'Z' then Char.ofNat (c.toNat + 32) else c

/-- ASCII lower-casing of a character list. -/
def lowerL (s : List Char) : List Char := s.map lowerChar

/-- `pat` occurs at the start of `s`. -/
def leadsList : List Char → List Char → Bool
  | [], _ => true
  | _ :: _, [] => false
  | a :: as, b :: bs => a = b && leadsList as bs

/-- `pat` occurs somewhere in `s` (Python `pat in s`). -/
def hasSubstr (pat : List Char) : List Char → Bool
  | [] => leadsList pat []
  | s@(_ :: rest) => leadsList pat s || hasSubstr pat rest

/-- Maximal digit run at the head of a list, with the remainder. -/
def digitRun (s : List Char) : List Char × List Char :=
  (s.takeWhile Char.isDigit, s.dropWhile Char.isDigit)

/-- Python `int` on a digit string. -/
def natOfDigits (ds : List Char) : Nat :=
  ds.foldl (fun n c => n * 10 + (c.toNat - 48)) 0

/-! ### The Response Segmenter

Embeds the streaming loop of `generate_host_response`
(`src/main_cli.py:702-897`): per text delta the buffer and
`full_response` grow, the `[RETURN]` token is checked, then the buffer
is split on speaker tags (multi-speaker) or sentence terminators.
-/

/-- One emitted sentence chunk: attributed speaker, text, and the value
of `sentence_count` when it was queued. -/
structure Chunk where
  speaker : Option String
  text : String
  seq : Nat
deriving DecidableEq, Repr

/-- Sentence-terminal punctuation, regex class `[.!?]`. -/
def isTerm (c : Char) : Bool := c = '.' || c = '!' || c = '?'

/-- `re.split(r'([.!?]+)', s)`: alternating text and terminator-run parts
(odd length, text first and last).  Fuel-indexed; `splitSent` supplies
enough fuel for the whole input. -/
def splitSentF : Nat → List Char → List (List Char)
  | 0, s => [s]
  | fuel + 1, s =>
    let t := s.takeWhile (fun c => !(isTerm c))
    let rest := s.dropWhile (fun c => !(isTerm c))
    match rest with
    | [] => [t]
    | _ =>
      let p := rest.takeWhile isTerm
      let rest2 := rest.dropWhile isTerm
      t :: p :: splitSentF fuel rest2

def splitSent (s : List Char) : List (List Char) := splitSentF (s.length + 1) s

/-- The `while len(sentences) >= 2` loop: consume (text, punctuation)
pairs, keeping a stripped sentence only when longer than 3 characters;
return the emitted sentences in order plus the trailing incomplete
text that stays buffered. -/
def consumeSentences : List (List Char) → List (List Char) × List Char
  | t :: p :: rest =>
    let s := stripL (t ++ p)
    let (em, rem) := consumeSentences rest
    if s.length > 3 then (s :: em, rem) else (em, rem)
  | [t] => ([], t)
  | [] => ([], [])

/-- Try to match the speaker-tag regex `\[([^\]]+):\]` at the head of
`s`: an opening bracket, a nonempty bracket-free body ending in a colon,
a closing bracket.  Returns the captured name and the remainder. -/
def tagAt (s : List Char) : Option (List Char × List Char) :=
  match s with
  | '[' :: tail =>
    let between := tail.takeWhile (fun c => c ≠ ']')
    let after := tail.dropWhile (fun c => c ≠ ']')
    match after with
    | _ :: rest =>
      if 2 ≤ between.length ∧ between.getLast? = some ':' then
        some (between.dropLast, rest)
      else none
    | [] => none
  | _ => none

/-- Leftmost speaker-tag match: (text before the match, capture, rest). -/
def findTag : List Char → Option (List Char × List Char × List Char)
  | [] => none
  | s@(c :: tail) =>
    match tagAt s with
    | some (cap, rest) => some ([], cap, rest)
    | none => (findTag tail).map (fun pcr => (c :: pcr.1, pcr.2.1, pcr.2.2))

/-- `re.split(r'\[([^\]]+):\]', s)`: parts alternating plain text and
captured speaker names.  Fuel-indexed; `splitTags` supplies enough. -/
def splitTagsF : Nat → List Char → List (List Char)
  | 0, s => [s]
  | fuel + 1, s =>
    match findTag s with
    | none => [s]
    | some (pre, cap, rest) => pre :: cap :: splitTagsF fuel rest

def splitTags (s : List Char) : List (List Char) := splitTagsF (s.length + 1) s

/-- The `while i < len(parts)` walk over the split parts (the prefix
part already skipped).  A recognized speaker's segment is split into
sentences and emitted; with further tags ahead `text_buffer` is reset to
the reconstructed next tag plus its text, otherwise the trailing text is
kept.  An unrecognized speaker is skipped (`i += 2`) without emitting or
reattributing.  Returns (current speaker, final `text_buffer`, emitted
(speaker, text) pairs in order). -/
def walkPairs (known : List String) :
    Option String → List Char → List (List Char) →
    Option String × List Char × List (Option String × String)
  | cur, buf, [] => (cur, buf, [])
  | cur, buf, [_] => (cur, buf, [])
  | cur, buf, c :: t :: rest =>
    let sp := String.mk (stripL c)
    if sp ∈ known then
      let pr := consumeSentences (splitSent t)
      let emitted := pr.1.map (fun x => (some sp, String.mk x))
      match rest with
      | c2 :: t2 :: rest2 =>
        let buf2 := ('[' :: c2) ++ (':' :: ']' :: t2)
        let r := walkPairs known (some sp) buf2 (c2 :: t2 :: rest2)
        (r.1, r.2.1, emitted ++ r.2.2)
      | [_] => (some sp, [], emitted)
      | [] => (some sp, pr.2, emitted)
    else
      walkPairs known cur buf rest

/-- Segmenter state across one turn: `text_buffer`, `full_response`,
`current_speaker`, `sentence_count`, emitted chunks, the `should_return`
flag, and how many times exit was signaled. -/
structure SegState where
  buffer : List Char
  full : List Char
  currentSpeaker : Option String
  count : Nat
  chunks : List Chunk
  exited : Bool
  signals : Nat
deriving DecidableEq, Repr

/-- Number a batch of emissions with consecutive `sentence_count` values
starting at `n + 1`. -/
def numberFrom : Nat → List (Option String × String) → List Chunk
  | _, [] => []
  | n, x :: xs => ⟨x.1, x.2, n + 1⟩ :: numberFrom (n + 1) xs

/-- Append a batch of emissions to the state, advancing the counter. -/
def emitAll (st : SegState) (em : List (Option String × String)) : SegState :=
  { st with chunks := st.chunks ++ numberFrom st.count em,
            count := st.count + em.length }

/-- The exit-token check of the source:
`"[RETURN]" in full_response or "[return]" in full_response.lower()`. -/
def exitDetected (s : List Char) : Bool :=
  hasSubstr ("[RETURN]".data) s || hasSubstr ("[return]".data) (lowerL s)

/-- The claim's phrasing: the exit token appears in `s` under any
casing. -/
def tokenIn (s : List Char) : Bool := hasSubstr ("[return]".data) (lowerL s)

/-- Process one streamed text delta, mirroring one iteration of
`for text in stream.text_stream` (after a break, iterations stop). -/
def processDelta (known : List String) (st : SegState) (delta : String) : SegState :=
  if st.exited then st else
  let buffer := st.buffer ++ delta.data
  let full := st.full ++ delta.data
  if exitDetected full then
    { st with buffer := buffer, full := full, exited := true,
              signals := st.signals + 1 }
  else
    let parts := splitTags buffer
    if 1 < parts.length ∧ 1 < known.length then
      match parts with
      | [] => { st with buffer := buffer, full := full }
      | _ :: restParts =>
        let r := walkPairs known st.currentSpeaker buffer restParts
        emitAll { st with buffer := r.2.1, full := full, currentSpeaker := r.1 } r.2.2
    else
      let cur : Option String :=
        match st.currentSpeaker with
        | some s => some s
        | none =>
          match known.head? with
          | some ds => if ds.data = [] then none else some ds
          | none => none
      let pr := consumeSentences (splitSent buffer)
      emitAll { st with buffer := pr.2, full := full, currentSpeaker := cur }
        (pr.1.map (fun x => (cur, String.mk x)))

def initSeg : SegState := ⟨[], [], none, 0, [], false, 0⟩

def runDeltas (known : List String) (st : SegState) (ds : List String) : SegState :=
  ds.foldl (processDelta known) st

/-- End-of-stream flush: skipped entirely when exit was requested,
otherwise the stripped nonempty remainder becomes one final chunk. -/
def finishTurn (st : SegState) : SegState :=
  if st.exited then st
  else if stripL st.buffer ≠ [] then
    emitAll st [(st.currentSpeaker, String.mk (stripL st.buffer))]
  else st

/-- One whole turn of the segmenter over a delta sequence. -/
def segmentTurn (known : List String) (ds : List String) : SegState :=
  finishTurn (runDeltas known initSeg ds)

/-- Concatenation of the deltas' characters. -/
def concatChars : List String → List Char
  | [] => []
  | d :: ds => d.data ++ concatChars ds

/-! ### The Rewind Resolver (`find_rewind_point`, `src/main_cli.py:982-1155`)

The external pieces (transcript lookup, the reasoning-model call) enter
as an environment; `none` for the model response models a raised
exception on the call.  The regex searches on the response text are
embedded character by character.
-/

/-- Match `TIMESTAMP:\s*(\d+):(\d+)` at the head of `s`. -/
def tsAt (s : List Char) : Option (Nat × Nat) :=
  if leadsList ("TIMESTAMP:".data) s then
    let afterWs := (s.drop 10).dropWhile isPySpace
    let d1 := digitRun afterWs
    match d1.1 with
    | [] => none
    | _ =>
      match d1.2 with
      | ':' :: rest2 =>
        let d2 := digitRun rest2
        match d2.1 with
        | [] => none
        | _ => some (natOfDigits d1.1, natOfDigits d2.1)
      | _ => none
  else none

/-- `re.search(r'TIMESTAMP:\s*(\d+):(\d+)', s)`: leftmost match. -/
def searchTimestamp : List Char → Option (Nat × Nat)
  | [] => none
  | s@(_ :: rest) =>
    match tsAt s with
    | some r => some r
    | none => searchTimestamp rest

/-- `re.search(r'TRANSITION:\s*(.+)', s, re.DOTALL)` followed by
`.strip()` of the capture: matched at the leftmost occurrence of the
literal with at least one character after it, the stripped capture then
equals the stripped remainder. -/
def searchTransition : List Char → Option (List Char)
  | [] => none
  | s@(_ :: rest) =>
    if leadsList ("TRANSITION:".data) s ∧ s.drop 11 ≠ [] then
      some (stripL (s.drop 11))
    else searchTransition rest

/-- External inputs of one `find_rewind_point` run. -/
structure ResolverEnv where
  transcriptContext : Option String
  modelResponse : Option String
deriving Repr

/-- The fixed-offset fallback `max(0, interrupt_timestamp - 10)`. -/
def fallbackTs (it : ℚ) : ℚ := max 0 (it - 10)

/-- `find_rewind_point`: returns (rewind timestamp in seconds,
transition sentence).  Transcript absent, a raised model call, an
unparseable timestamp, or an out-of-window suggestion all fall back to
`fallbackTs`; the parsed transition survives every path in which the
response text was parsed. -/
def find_rewind_point (env : ResolverEnv) (interrupt_timestamp : ℚ) :
    ℚ × Option String :=
  match env.transcriptContext with
  | none => (fallbackTs interrupt_timestamp, none)
  | some _ =>
    match env.modelResponse with
    | none => (fallbackTs interrupt_timestamp, none)
    | some raw =>
      let response_text := stripL raw.data
      let transition_sentence := (searchTransition response_text).map String.mk
      match searchTimestamp response_text with
      | some ms =>
        let suggested : ℚ := ((ms.1 * 60 + ms.2 : Nat) : ℚ)
        let min_allowed : ℚ := max 0 (interrupt_timestamp - 30)
        let max_allowed : ℚ := interrupt_timestamp
        let tolerance : ℚ := 2
        if min_allowed - tolerance ≤ suggested ∧ suggested ≤ max_allowed then
          (suggested, transition_sentence)
        else
          (fallbackTs interrupt_timestamp, transition_sentence)
      | none => (fallbackTs interrupt_timestamp, transition_sentence)

/-! ### The Synthesis/Playback Pipe

`audio_queue = Queue()` with a single producer (the streaming loop,
which finishes each TTS call before `put`) and a single consumer
(`play_audio_queue`), terminated by a `None` sentinel.
-/

/-- One synthesized clip as placed on `audio_queue`. -/
structure AudioClip where
  seq : Nat
  text : String
deriving DecidableEq, Repr

/-- Producer enqueueing: each synthesis call takes `latency i` time
units and completes before its clip is enqueued, so entries carry
completion times but keep submission order. -/
def enqueueTimes (latency : Nat → Nat) : Nat → Nat → List AudioClip →
    List (Nat × AudioClip)
  | _, _, [] => []
  | t, i, c :: cs =>
    let t2 := t + latency i
    (t2, c) :: enqueueTimes latency t2 (i + 1) cs

/-- Consumer loop of `play_audio_queue`: dequeue until the `None`
sentinel; a per-clip conversion/playback failure (`playOk c = false`)
is caught by the inner handler, logged and skipped. -/
def playClips (playOk : AudioClip → Bool) : List (Option AudioClip) → List AudioClip
  | [] => []
  | none :: _ => []
  | some c :: rest =>
    if playOk c then c :: playClips playOk rest else playClips playOk rest

/-- Clips actually played for a submission sequence, all playbacks
succeeding. -/
def pipePlayback (latency : Nat → Nat) (clips : List AudioClip) : List AudioClip :=
  playClips (fun _ => true)
    (((enqueueTimes latency 0 0 clips).map (fun p => some p.2)) ++ [none])

/-- Producer-side synthesis over the turn's chunks: one TTS call per
chunk with no per-chunk handler, so a raised call escapes the streaming
loop to the outer `except` and generation stops; clips queued so far
remain queued.  Returns (queued clips, whether generation aborted). -/
def synthesizeChunks (synth : Chunk → Option AudioClip) :
    List Chunk → List AudioClip × Bool
  | [] => ([], false)
  | c :: cs =>
    match synth c with
    | none => ([], true)
    | some a =>
      let r := synthesizeChunks synth cs
      (a :: r.1, r.2)

/-! ### Resume orchestration (`handle_talk`, `src/main_cli.py:447-515`)

External-player calls issued after the conversation loop ends.  The
seek is guarded by Python truthiness of `rewind_result.get("timestamp")`
(so both `None` and `0.0` skip it); `int(timestamp * 1000)` truncates
toward zero.
-/

inductive PlayerCall where
  | getStatus
  | pause
  | seekToPosition (ms : Int)
  | resume (device : Option String)
deriving DecidableEq, Repr

def isSeek : PlayerCall → Bool
  | .seekToPosition _ => true
  | _ => false

def isResume : PlayerCall → Bool
  | .resume _ => true
  | _ => false

/-- Python `int()` truncation toward zero on a rational. -/
def ratTrunc (q : ℚ) : Int := q.num / (q.den : Int)

/-- The shared `rewind_result` dict as read by the orchestrator. -/
structure RewindShared where
  timestamp : Option ℚ
  transition : Option String
deriving DecidableEq, Repr

/-- Player calls of the resume phase: nothing at all unless
`was_playing`; otherwise an optional seek followed by one resume. -/
def resumeOrchestrator (was_playing : Bool) (device_id : Option String)
    (rewind : RewindShared) : List PlayerCall :=
  if was_playing then
    (match rewind.timestamp with
     | some t => if t ≠ 0 then [PlayerCall.seekToPosition (ratTrunc (t * 1000))] else []
     | none => []) ++ [PlayerCall.resume device_id]
  else []

/-! ### `SpotifyClient.resume` (`src/spotify_client.py:245-277`) -/

structure ApiReq where
  method : String
  endpoint : String
deriving DecidableEq, Repr

namespace SpotifyClient

/-- The request `resume` issues: always a plain `PUT /me/player/play`,
whatever `device_id` holds. -/
def resume_request (device_id : Option String) : ApiReq :=
  ⟨"PUT", "/me/player/play"⟩

/-- `resume(device_id)`: the environment `api` maps a request to a
response status code (`none` models a failed request).  True exactly on
200/204. -/
def resume (device_id : Option String) (api : ApiReq → Option Nat) : Bool :=
  match api (resume_request device_id) with
  | some code => code = 200 || code = 204
  | none => false

end SpotifyClient

/-! ### Helper lemmas: sequence numbering -/

theorem numberFrom_map_seq (l : List (Option String × String)) :
    ∀ n, (numberFrom n l).map Chunk.seq = List.range' (n + 1) l.length := by
  induction l with
  | nil => intro n; rfl
  | cons x xs ih =>
    intro n
    simp [numberFrom, List.range'_succ, ih]

/-- The cross-step invariant: emitted chunks are numbered `1..count`. -/
def SegInv (st : SegState) : Prop :=
  st.chunks.map Chunk.seq = List.range' 1 st.count

theorem segInv_emitAll {st : SegState} (h : SegInv st)
    (em : List (Option String × String)) : SegInv (emitAll st em) := by
  unfold SegInv emitAll at *
  simp only [List.map_append, h, numberFrom_map_seq]
  have hr := List.range'_append_1 1 st.count em.length
  rw [Nat.add_comm 1 st.count] at hr
  rw [hr, Nat.add_comm em.length st.count]

theorem segInv_of_eq {st st' : SegState} (h : SegInv st)
    (hc : st'.chunks = st.chunks) (hn : st'.count = st.count) : SegInv st' := by
  unfold SegInv at *
  rw [hc, hn]
  exact h

theorem segInv_processDelta (known : List String) {st : SegState} (h : SegInv st)
    (d : String) : SegInv (processDelta known st d) := by
  unfold processDelta
  dsimp only
  split
  · exact h
  · split
    · exact segInv_of_eq h rfl rfl
    · split
      · split
        · exact segInv_of_eq h rfl rfl
        · exact segInv_emitAll (segInv_of_eq h rfl rfl) _
      · exact segInv_emitAll (segInv_of_eq h rfl rfl) _

theorem segInv_finishTurn {st : SegState} (h : SegInv st) : SegInv (finishTurn st) := by
  unfold finishTurn
  split
  · exact h
  · split
    · exact segInv_emitAll h _
    · exact h

theorem segInv_runDeltas (known : List String) (ds : List String) :
    ∀ st : SegState, SegInv st → SegInv (runDeltas known st ds) := by
  induction ds with
  | nil => intro st h; exact h
  | cons d ds ih =>
    intro st h
    exact ih _ (segInv_processDelta known h d)

/-- C1, amended: for every delta sequence the chunks of a turn are
numbered `1, 2, 3, ...` strictly increasing by 1 with no gaps; the
other half of the claim, invariance under delta chunking, fails. -/
theorem segmenter_seq_gapless (known ds : List String) :
    (segmentTurn known ds).chunks.map Chunk.seq
      = List.range' 1 (segmentTurn known ds).count :=
  segInv_finishTurn (segInv_runDeltas known ds initSeg rfl)

/-- C1, counterexample: two delta sequences with the same concatenation
("Hi!!") produce different chunk sequences, because a terminator run
split across deltas makes a 3-character sentence that is dropped. -/
theorem segmenter_chunking_dependent :
    concatChars ["Hi!", "!"] = concatChars ["Hi!!"]
    ∧ (segmentTurn ["Alice"] ["Hi!", "!"]).chunks = []
    ∧ (segmentTurn ["Alice"] ["Hi!!"]).chunks
        = [{ speaker := some "Alice", text := "Hi!!", seq := 1 }] := by
  refine ⟨rfl, ?_, ?_⟩ <;> decide

/-! ### Helper lemmas: substring containment -/

theorem leadsList_append : ∀ (pat a b : List Char),
    leadsList pat a = true → leadsList pat (a ++ b) = true
  | [], _, _, _ => rfl
  | _ :: _, [], _, h => by simp [leadsList] at h
  | p :: ps, c :: as, b, h => by
    simp only [leadsList, Bool.and_eq_true, decide_eq_true_eq] at h ⊢
    exact ⟨h.1, leadsList_append ps as b h.2⟩

theorem leadsList_map (f : Char → Char) : ∀ (pat l : List Char),
    leadsList pat l = true → leadsList (pat.map f) (l.map f) = true
  | [], _, _ => rfl
  | _ :: _, [], h => by simp [leadsList] at h
  | p :: ps, c :: as, h => by
    simp only [leadsList, Bool.and_eq_true, decide_eq_true_eq, List.map] at h ⊢
    exact ⟨by rw [h.1], leadsList_map f ps as h.2⟩

theorem hasSubstr_nil_pat : ∀ s : List Char, hasSubstr [] s = true
  | [] => rfl
  | _ :: _ => rfl

theorem hasSubstr_append : ∀ (pat a b : List Char),
    hasSubstr pat a = true → hasSubstr pat (a ++ b) = true
  | pat, [], b, h => by
    cases pat with
    | nil => exact hasSubstr_nil_pat b
    | cons p ps => simp [hasSubstr, leadsList] at h
  | pat, c :: as, b, h => by
    simp only [hasSubstr, Bool.or_eq_true] at h
    cases h with
    | inl h =>
      simp only [List.cons_append, hasSubstr, Bool.or_eq_true]
      exact Or.inl (leadsList_append pat (c :: as) b h)
    | inr h =>
      simp only [List.cons_append, hasSubstr, Bool.or_eq_true]
      exact Or.inr (hasSubstr_append pat as b h)

theorem hasSubstr_map (f : Char → Char) : ∀ (pat l : List Char),
    hasSubstr pat l = true → hasSubstr (pat.map f) (l.map f) = true
  | pat, [], h => by
    cases pat with
    | nil => rfl
    | cons p ps => simp [hasSubstr, leadsList] at h
  | pat, c :: as, h => by
    simp only [hasSubstr, Bool.or_eq_true] at h
    cases h with
    | inl h =>
      simp only [List.map, hasSubstr, Bool.or_eq_true]
      exact Or.inl (by simpa using leadsList_map f pat (c :: as) h)
    | inr h =>
      simp only [List.map, hasSubstr, Bool.or_eq_true]
      exact Or.inr (hasSubstr_map f pat as h)

/-- The source's double check is equivalent to the case-insensitive
containment that the claim describes. -/
theorem exitDetected_eq_tokenIn (s : List Char) : exitDetected s = tokenIn s := by
  unfold exitDetected tokenIn
  cases h : hasSubstr ("[RETURN]".data) s with
  | false => simp
  | true =>
    have h2 := hasSubstr_map lowerChar _ _ h
    have he : ("[RETURN]".data).map lowerChar = "[return]".data := by decide
    rw [he] at h2
    simp [lowerL, h2]

theorem tokenIn_append (a b : List Char) (h : tokenIn a = true) :
    tokenIn (a ++ b) = true := by
  unfold tokenIn at *
  rw [lowerL, List.map_append]
  exact hasSubstr_append _ _ _ h

/-! ### Helper lemmas: processing before, at and after exit detection -/

theorem emitAll_exited (st : SegState) (em : List (Option String × String)) :
    (emitAll st em).exited = st.exited := rfl

theorem processDelta_exited (known : List String) {st : SegState} (d : String)
    (h : st.exited = true) : processDelta known st d = st := by
  unfold processDelta
  rw [h]
  rfl

theorem runDeltas_stop (known : List String) (ds : List String) {st : SegState}
    (h : st.exited = true) : runDeltas known st ds = st := by
  induction ds with
  | nil => rfl
  | cons d ds ih =>
    show runDeltas known (processDelta known st d) ds = st
    rw [processDelta_exited known d h]
    exact ih

theorem finishTurn_exited {st : SegState} (h : st.exited = true) :
    finishTurn st = st := by
  unfold finishTurn
  rw [h]
  rfl

theorem processDelta_detect (known : List String) {st : SegState} (d : String)
    (h1 : st.exited = false) (h2 : exitDetected (st.full ++ d.data) = true) :
    processDelta known st d =
      { st with buffer := st.buffer ++ d.data, full := st.full ++ d.data,
                exited := true, signals := st.signals + 1 } := by
  unfold processDelta
  simp [h1, h2]

theorem processDelta_quiet (known : List String) {st : SegState} (d : String)
    (h1 : st.exited = false) (h2 : exitDetected (st.full ++ d.data) = false) :
    (processDelta known st d).exited = false
    ∧ (processDelta known st d).signals = st.signals
    ∧ (processDelta known st d).full = st.full ++ d.data := by
  unfold processDelta
  simp only [h1, h2, Bool.false_eq_true, if_false]
  split
  · split
    · exact ⟨rfl, rfl, rfl⟩
    · exact ⟨rfl, rfl, rfl⟩
  · exact ⟨rfl, rfl, rfl⟩

theorem runDeltas_quiet (known : List String) : ∀ (ds : List String) (st : SegState),
    st.exited = false →
    tokenIn (st.full ++ concatChars ds) = false →
    (runDeltas known st ds).exited = false
    ∧ (runDeltas known st ds).signals = st.signals
    ∧ (runDeltas known st ds).full = st.full ++ concatChars ds := by
  intro ds
  induction ds with
  | nil =>
    intro st h1 h2
    refine ⟨h1, rfl, ?_⟩
    show st.full = st.full ++ concatChars []
    simp [concatChars]
  | cons d ds ih =>
    intro st h1 h2
    have hnd : exitDetected (st.full ++ d.data) = false := by
      rw [exitDetected_eq_tokenIn]
      cases hq : tokenIn (st.full ++ d.data) with
      | false => rfl
      | true =>
        exfalso
        have hext := tokenIn_append _ (concatChars ds) hq
        rw [List.append_assoc] at hext
        show False
        rw [show concatChars (d :: ds) = d.data ++ concatChars ds from rfl] at h2
        rw [h2] at hext
        exact Bool.false_ne_true hext
    have hq := processDelta_quiet known d h1 hnd
    have hrest := ih (processDelta known st d) hq.1
      (by rw [hq.2.2, List.append_assoc]
          rw [show d.data ++ concatChars ds = concatChars (d :: ds) from rfl]
          exact h2)
    refine ⟨hrest.1, ?_, ?_⟩
    · show (runDeltas known (processDelta known st d) ds).signals = st.signals
      rw [hrest.2.1, hq.2.1]
    · show (runDeltas known (processDelta known st d) ds).full
        = st.full ++ concatChars (d :: ds)
      rw [hrest.2.2, hq.2.2, List.append_assoc]
      rfl

/-- C4, confirmed: once the exit token (any casing) is contained in the
accumulated text, the turn ends with no further chunk emitted by the
detecting delta or any later delta, the end-of-turn flush is skipped,
and exit is signaled exactly once. -/
theorem exit_token_stops_turn (known : List String) (pre post : List String)
    (d : String)
    (h1 : tokenIn (concatChars pre) = false)
    (h2 : tokenIn (concatChars pre ++ d.data) = true) :
    (segmentTurn known (pre ++ d :: post)).chunks
      = (runDeltas known initSeg pre).chunks
    ∧ (segmentTurn known (pre ++ d :: post)).exited = true
    ∧ (segmentTurn known (pre ++ d :: post)).signals = 1 := by
  have hpre := runDeltas_quiet known pre initSeg rfl (by simpa [initSeg] using h1)
  have hdet : exitDetected ((runDeltas known initSeg pre).full ++ d.data) = true := by
    rw [exitDetected_eq_tokenIn, hpre.2.2]
    simpa [initSeg] using h2
  have hstep := processDelta_detect known d hpre.1 hdet
  have hsplit : runDeltas known initSeg (pre ++ d :: post)
      = runDeltas known (processDelta known (runDeltas known initSeg pre) d) post := by
    unfold runDeltas
    rw [List.foldl_append]
    rfl
  have hstop : runDeltas known (processDelta known (runDeltas known initSeg pre) d) post
      = processDelta known (runDeltas known initSeg pre) d := by
    apply runDeltas_stop
    rw [hstep]
  have hfin : segmentTurn known (pre ++ d :: post)
      = processDelta known (runDeltas known initSeg pre) d := by
    unfold segmentTurn
    rw [hsplit, hstop]
    apply finishTurn_exited
    rw [hstep]
  rw [hfin, hstep]
  exact ⟨rfl, rfl, by rw [hpre.2.1]; rfl⟩

/-- Witness for C4 at a concrete stream: one ordinary delta, then a
delta carrying the token in mixed casing, then a delta that would have
produced more chunks. -/
theorem exit_token_stops_turn_witness :
    tokenIn (concatChars ["Hi there. "]) = false
    ∧ tokenIn (concatChars ["Hi there. "] ++ ("Ok [ReTuRn] bye").data) = true
    ∧ (segmentTurn ["Alice"] (["Hi there. "] ++ "Ok [ReTuRn] bye" :: ["Ignored. Stuff."])).chunks
        = (runDeltas ["Alice"] initSeg ["Hi there. "]).chunks
    ∧ (segmentTurn ["Alice"] (["Hi there. "] ++ "Ok [ReTuRn] bye" :: ["Ignored. Stuff."])).exited = true
    ∧ (segmentTurn ["Alice"] (["Hi there. "] ++ "Ok [ReTuRn] bye" :: ["Ignored. Stuff."])).signals = 1 := by
  have h1 : tokenIn (concatChars ["Hi there. "]) = false := by decide
  have h2 : tokenIn (concatChars ["Hi there. "] ++ ("Ok [ReTuRn] bye").data) = true := by decide
  have h := exit_token_stops_turn ["Alice"] ["Hi there. "] ["Ignored. Stuff."]
    "Ok [ReTuRn] bye" h1 h2
  exact ⟨h1, h2, h.1, h.2.1, h.2.2⟩

/-! ### C6: unrecognized speaker tags -/

/-- C6, amended: a tag naming an unknown speaker is skipped together
with its following text slice (`i += 2`): the pair contributes no
emission, and neither the active speaker nor the pending buffer
changes — the tagged text is not re-attributed to the previously active
speaker. -/
theorem unknown_speaker_skipped (known : List String) (cur : Option String)
    (buf : List Char) (c t : List Char) (rest : List (List Char))
    (h : String.mk (stripL c) ∉ known) :
    walkPairs known cur buf (c :: t :: rest) = walkPairs known cur buf rest := by
  conv_lhs => rw [walkPairs]
  rw [if_neg h]

/-- Witness for C6 at a concrete unknown tag between two known hosts. -/
theorem unknown_speaker_skipped_witness :
    walkPairs ["Alice", "Bob"] (some "Alice") []
        (("Carol").data :: (" Secret stuff. ").data :: [("Bob").data, (" Bye now.").data])
      = walkPairs ["Alice", "Bob"] (some "Alice") []
        [("Bob").data, (" Bye now.").data] :=
  unknown_speaker_skipped ["Alice", "Bob"] (some "Alice") []
    (("Carol").data) ((" Secret stuff. ").data) [("Bob").data, (" Bye now.").data]
    (by decide)

/-- C6, counterexample: with known hosts Alice and Bob and an active
speaker (Alice), the text tagged for the unknown speaker Carol is not
emitted at all — it is dropped, not attributed to Alice. -/
theorem unknown_speaker_text_dropped :
    ((segmentTurn ["Alice", "Bob"]
        ["[Alice:] Hello there. [Carol:] Secret stuff. [Bob:] Bye now."]).chunks.map
      Chunk.text) = ["Hello there.", "Bye now."]
    ∧ ("Secret stuff." ∉
        (segmentTurn ["Alice", "Bob"]
          ["[Alice:] Hello there. [Carol:] Secret stuff. [Bob:] Bye now."]).chunks.map
        Chunk.text) := by
  constructor
  · decide
  · decide

/-! ### C2 and C7: the Rewind Resolver's window and fallback -/

theorem fallbackTs_of_le (it : ℚ) (h : it ≤ 10) : fallbackTs it = 0 := by
  unfold fallbackTs
  rw [max_eq_left]
  linarith

theorem fallbackTs_of_ge (it : ℚ) (h : 10 ≤ it) : fallbackTs it = it - 10 := by
  unfold fallbackTs
  rw [max_eq_right]
  linarith

theorem fallbackTs_bounds (it : ℚ) (h : 0 ≤ it) :
    it - 32 ≤ fallbackTs it ∧ fallbackTs it ≤ it + 2 := by
  unfold fallbackTs
  constructor
  · have := le_max_right (0 : ℚ) (it - 10)
    linarith
  · apply max_le <;> linarith

/-- C2, amended: for a nonnegative interrupt time the resolver's
returned timestamp always lies in `[interrupt_time - 32,
interrupt_time + 2]`, and whenever the parsed suggestion falls outside
that window the resolver returns the clamped fallback
`max(0, interrupt_time - 10)` while preserving the parsed transition
text. -/
theorem resolver_window (it : ℚ) (hit : 0 ≤ it) :
    (∀ env : ResolverEnv,
        it - 32 ≤ (find_rewind_point env it).1
        ∧ (find_rewind_point env it).1 ≤ it + 2)
    ∧ (∀ (ctx raw : String) (m s : Nat),
        searchTimestamp (stripL raw.data) = some (m, s) →
        (((m * 60 + s : Nat) : ℚ) < it - 32 ∨ it + 2 < ((m * 60 + s : Nat) : ℚ)) →
        find_rewind_point ⟨some ctx, some raw⟩ it
          = (fallbackTs it, (searchTransition (stripL raw.data)).map String.mk)) := by
  have hfb := fallbackTs_bounds it hit
  constructor
  · intro env
    obtain ⟨tc, mr⟩ := env
    cases tc with
    | none => exact hfb
    | some c =>
      cases mr with
      | none => exact hfb
      | some raw =>
        unfold find_rewind_point
        dsimp only
        cases hts : searchTimestamp (stripL raw.data) with
        | none => exact hfb
        | some p =>
          dsimp only
          split
          next hcond =>
            have hmin := le_max_right (0 : ℚ) (it - 30)
            exact ⟨by linarith [hcond.1], by linarith [hcond.2]⟩
          next hcond => exact hfb
  · intro ctx raw m s hts hout
    unfold find_rewind_point
    dsimp only
    rw [hts]
    dsimp only
    rw [if_neg]
    intro hcond
    have hmin := le_max_right (0 : ℚ) (it - 30)
    cases hout with
    | inl hlt => linarith [hcond.1]
    | inr hgt => linarith [hcond.2]

/-- Witness for C2 at a concrete out-of-window model suggestion. -/
theorem resolver_window_witness :
    searchTimestamp (stripL ("TIMESTAMP: 9:00\nTRANSITION: back to it").data)
        = some (9, 0)
    ∧ ((100 : ℚ) - 32 ≤
        (find_rewind_point ⟨some "c", some "TIMESTAMP: 9:00\nTRANSITION: back to it"⟩ 100).1
      ∧ (find_rewind_point ⟨some "c", some "TIMESTAMP: 9:00\nTRANSITION: back to it"⟩ 100).1
          ≤ 100 + 2)
    ∧ find_rewind_point ⟨some "c", some "TIMESTAMP: 9:00\nTRANSITION: back to it"⟩ 100
        = (fallbackTs 100,
           (searchTransition (stripL ("TIMESTAMP: 9:00\nTRANSITION: back to it").data)).map
             String.mk) := by
  have h := resolver_window 100 (by norm_num)
  refine ⟨by decide, h.1 _, ?_⟩
  exact h.2 "c" "TIMESTAMP: 9:00\nTRANSITION: back to it" 9 0 (by decide)
    (Or.inr (by norm_num))

/-- C2, counterexample: interrupt at 5s with suggestion 1:00 (outside
the window) returns the clamped fallback 0, not the claimed
`interrupt_time - 10 = -5`. -/
theorem resolver_window_counterexample :
    searchTimestamp (stripL ("TIMESTAMP: 1:00\nTRANSITION: ok").data) = some (1, 0)
    ∧ ((5 : ℚ) + 2 < ((1 * 60 + 0 : Nat) : ℚ))
    ∧ find_rewind_point ⟨some "ctx", some "TIMESTAMP: 1:00\nTRANSITION: ok"⟩ 5
        = (0, some "ok")
    ∧ (0 : ℚ) ≠ 5 - 10 := by
  have hts : searchTimestamp (stripL ("TIMESTAMP: 1:00\nTRANSITION: ok").data)
      = some (1, 0) := by decide
  have htr : searchTransition (stripL ("TIMESTAMP: 1:00\nTRANSITION: ok").data)
      = some ("ok".data) := by decide
  refine ⟨hts, by norm_num, ?_, by norm_num⟩
  unfold find_rewind_point
  dsimp only
  rw [hts]
  dsimp only
  split
  next hcond =>
    exfalso
    push_cast at hcond
    linarith [hcond.2]
  next hcond =>
    rw [htr, fallbackTs_of_le 5 (by norm_num)]
    rfl

/-- C7, amended: the resolver is total, and the transcript-absent,
call-error and unparseable-response paths all return the clamped
fallback `max(0, interrupt_time - 10)` (transition text absent except
when parsed from the response); at 224:46 with no parseable response
the result is 224:36 with no transition. -/
theorem resolver_total_fallback :
    (∀ (it : ℚ) (r : Option String),
        find_rewind_point ⟨none, r⟩ it = (fallbackTs it, none))
    ∧ (∀ (it : ℚ) (c : String),
        find_rewind_point ⟨some c, none⟩ it = (fallbackTs it, none))
    ∧ (∀ (it : ℚ) (c raw : String),
        searchTimestamp (stripL raw.data) = none →
        find_rewind_point ⟨some c, some raw⟩ it
          = (fallbackTs it, (searchTransition (stripL raw.data)).map String.mk))
    ∧ find_rewind_point ⟨some "transcript", some "I cannot determine a timestamp"⟩ 13486
        = (13476, none) := by
  have h3 : ∀ (it : ℚ) (c raw : String),
      searchTimestamp (stripL raw.data) = none →
      find_rewind_point ⟨some c, some raw⟩ it
        = (fallbackTs it, (searchTransition (stripL raw.data)).map String.mk) := by
    intro it c raw hts
    unfold find_rewind_point
    dsimp only
    rw [hts]
  refine ⟨fun it r => rfl, fun it c => rfl, h3, ?_⟩
  rw [h3 13486 "transcript" "I cannot determine a timestamp" (by decide)]
  rw [show searchTransition (stripL ("I cannot determine a timestamp").data) = none
      from by decide]
  rw [fallbackTs_of_ge 13486 (by norm_num)]
  rw [show (13486 : ℚ) - 10 = 13476 from by norm_num]
  rfl

/-- Witness for C7 at a concrete response containing a transition but
no parseable timestamp. -/
theorem resolver_total_fallback_witness :
    searchTimestamp (stripL ("TRANSITION: resuming now").data) = none
    ∧ find_rewind_point ⟨some "t", some "TRANSITION: resuming now"⟩ 50
        = (fallbackTs 50,
           (searchTransition (stripL ("TRANSITION: resuming now").data)).map String.mk) :=
  ⟨by decide, resolver_total_fallback.2.2.1 50 "t" "TRANSITION: resuming now" (by decide)⟩

/-- C7, counterexample: an interrupt at 5s with no transcript resolves
to the clamp 0, not the claimed `interrupt_time - 10 = -5`. -/
theorem resolver_fallback_counterexample :
    find_rewind_point ⟨none, none⟩ 5 = (0, none) ∧ (0 : ℚ) ≠ 5 - 10 := by
  constructor
  · show (fallbackTs 5, (none : Option String)) = ((0 : ℚ), (none : Option String))
    rw [fallbackTs_of_le 5 (by norm_num)]
  · norm_num

/-! ### C5: FIFO playback order -/

/-- C5, confirmed: for clips submitted to the queue in order, the
consumer dequeues and plays them in exactly that order, whatever the
per-call synthesis latencies were. -/
theorem playback_order_eq_submission (latency : Nat → Nat) (clips : List AudioClip) :
    pipePlayback latency clips = clips := by
  have key : ∀ (cs : List AudioClip) (t i : Nat),
      playClips (fun _ => true)
          (((enqueueTimes latency t i cs).map (fun p => some p.2)) ++ [none]) = cs := by
    intro cs
    induction cs with
    | nil => intro t i; rfl
    | cons c cs ih =>
      intro t i
      simp only [enqueueTimes, List.map_cons, List.cons_append, playClips, if_pos]
      exact congrArg (fun l => c :: l) (ih (t + latency i) (i + 1))
  exact key clips 0 0

/-! ### C3: failure of one synthesis or playback call -/

/-- C3, amended: a failing conversion/playback of one queued clip is
caught per item, the clip is skipped and every later queued clip still
plays in order; but a failing synthesis call has no per-chunk handler —
it aborts the remaining generation of the turn (only already-queued
clips survive). -/
theorem single_clip_failure_skipped :
    (∀ (playOk : AudioClip → Bool) (clips : List AudioClip),
        playClips playOk (clips.map some ++ [none]) = clips.filter playOk)
    ∧ (∀ (synth : Chunk → Option AudioClip) (c : Chunk) (cs : List Chunk),
        synth c = none → synthesizeChunks synth (c :: cs) = ([], true)) := by
  constructor
  · intro playOk clips
    induction clips with
    | nil => rfl
    | cons c cs ih =>
      simp only [List.map_cons, List.cons_append, playClips, List.filter_cons]
      cases h : playOk c with
      | false => simpa [h] using ih
      | true => simpa [h] using ih
  · intro synth c cs h
    unfold synthesizeChunks
    rw [h]

/-- Witness for C3 (amended): a concrete failing first playback with
two queued clips, and a concrete failing first synthesis call. -/
theorem single_clip_failure_skipped_witness :
    playClips (fun a => a.seq ≠ 1)
        ([(⟨1, "One."⟩ : AudioClip), ⟨2, "Two."⟩].map some ++ [none])
      = [(⟨1, "One."⟩ : AudioClip), ⟨2, "Two."⟩].filter (fun a => a.seq ≠ 1)
    ∧ synthesizeChunks (fun c => if c.seq = 1 then none else some ⟨c.seq, c.text⟩)
        ((⟨some "Alice", "One.", 1⟩ : Chunk) :: [⟨some "Alice", "Two.", 2⟩])
      = ([], true) :=
  ⟨single_clip_failure_skipped.1 _ _,
   single_clip_failure_skipped.2 _ _ _ (by decide)⟩

/-- C3, counterexample: the synthesis call for chunk 1 fails while the
one for chunk 2 would succeed, yet no clip for chunk 2 is queued or
played — the claim that subsequent chunks of the turn are still
synthesized and played fails. -/
theorem synth_failure_aborts_turn :
    synthesizeChunks (fun c => if c.seq = 1 then none else some ⟨c.seq, c.text⟩)
        [(⟨some "Alice", "One.", 1⟩ : Chunk), ⟨some "Alice", "Two.", 2⟩]
      = ([], true)
    ∧ (fun (c : Chunk) => if c.seq = 1 then none else some (⟨c.seq, c.text⟩ : AudioClip))
        ⟨some "Alice", "Two.", 2⟩ = some ⟨2, "Two."⟩ := by
  exact ⟨by decide, by decide⟩

/-! ### C8 and C9: resume orchestration -/

/-- C8, confirmed: with `was_playing = false` the resume phase performs
zero seek calls and zero resume calls on the external player — it
issues no player call at all. -/
theorem no_player_calls_when_not_playing (device_id : Option String)
    (rewind : RewindShared) :
    (resumeOrchestrator false device_id rewind).countP isSeek = 0
    ∧ (resumeOrchestrator false device_id rewind).countP isResume = 0
    ∧ resumeOrchestrator false device_id rewind = [] :=
  ⟨rfl, rfl, rfl⟩

/-- C9, confirmed: a resolved timestamp of exactly 0 is falsy for the
`rewind_result.get("timestamp")` guard, so the orchestrator skips the
seek and only issues resume (playback continues from the original
paused position); and the clamped fallback produces exactly 0 for any
interrupt in the first 10 seconds. -/
theorem zero_timestamp_skips_seek :
    (∀ (device_id : Option String) (tr : Option String),
        resumeOrchestrator true device_id ⟨some 0, tr⟩
          = [PlayerCall.resume device_id]
        ∧ (resumeOrchestrator true device_id ⟨some 0, tr⟩).countP isSeek = 0)
    ∧ (∀ it : ℚ, 0 ≤ it → it ≤ 10 → fallbackTs it = 0) := by
  constructor
  · intro d tr
    have h : resumeOrchestrator true d ⟨some 0, tr⟩ = [PlayerCall.resume d] := by
      unfold resumeOrchestrator
      simp
    refine ⟨h, ?_⟩
    rw [h]
    rfl
  · intro it h1 h2
    exact fallbackTs_of_le it h2

/-- Witness for C9 at a concrete shared result and interrupt time. -/
theorem zero_timestamp_skips_seek_witness :
    (resumeOrchestrator true none ⟨some 0, none⟩ = [PlayerCall.resume none]
      ∧ (resumeOrchestrator true none ⟨some 0, none⟩).countP isSeek = 0)
    ∧ fallbackTs 7 = 0 :=
  ⟨zero_timestamp_skips_seek.1 none none,
   zero_timestamp_skips_seek.2 7 (by norm_num) (by norm_num)⟩

/-! ### C10: `resume` ignores its device argument -/

/-- C10, confirmed: for every device id, `resume` issues exactly the
same request (`PUT /me/player/play`) and returns the same result as
`resume(None)` — the captured device reference never influences the
call. -/
theorem resume_ignores_device (d : String) (api : ApiReq → Option Nat) :
    SpotifyClient.resume (some d) api = SpotifyClient.resume none api
    ∧ SpotifyClient.resume_request (some d) = SpotifyClient.resume_request none :=
  ⟨rfl, rfl⟩

end Podchat
